import Mathlib

/-!
Shallow embedding of the Song-Analysis pipeline (SCdownloading.py,
jsonsorting.py, deeperdata.py, urltesting.py) and proofs about it.

External collaborators (the SoundCloud resolver, HTTP fetch, and the
librosa decoder/feature primitives) are modelled as oracle functions
passed in as parameters; numeric audio quantities are modelled as
rationals.  Python dict records are modelled as structures with
`Option`-typed fields for the keys that are only sometimes present,
and Python truthiness of a string-valued field is an explicit
emptiness test.
-/

namespace SongAnalysis

/-- A stage-1 track record as built by `url_collection` in
SCdownloading.py: exactly the five keys of the `new_track` dict. -/
structure Track where
  title : String
  artist : String
  track_url : String
  duration : Int
  genre : String
deriving DecidableEq, Repr

/-- The dedup-then-append of SCdownloading.py lines 50-52:
`if new_track not in all_tracks: all_tracks.append(new_track)`.
Python `in` on dicts is structural equality of the full record. -/
def merge_insert (store : List Track) (cand : Track) : List Track :=
  if cand ∈ store then store else store ++ [cand]

/-- Deep-analysis payload attached by stage 3 (`analyze_song_deep` in
deeperdata.py): per-section energy, rhythm, and structure. -/
structure DeepAnalysis where
  energy : List (ℚ × ℚ)
  tempo : ℚ
  beat_times : List ℚ
  sections : List ℚ
  bars : List (List ℚ)
deriving DecidableEq, Repr

/-- A record as seen by stages 2 and 3 (jsonsorting.py, deeperdata.py):
a JSON object whose `track_url`, `genre`, `bpm`, `key` and `features`
keys may be absent (`none`). -/
structure Song where
  title : String
  artist : String
  track_url : Option String
  duration : Int
  genre : Option String
  bpm : Option ℚ
  key : Option String
  features : Option DeepAnalysis
deriving DecidableEq, Repr

/-- Python truthiness of an optional string value: `None` and the empty
string are falsy (`if not track_url`, `if not stream_url`). -/
def truthyStr : Option String → Bool
  | none => false
  | some s => !(s == "")

/-- The cleanup filter of jsonsorting.py line 166:
`[song for song in songs if "bpm" in song and "key" in song]`. -/
def clean_analyzed_songs (songs : List Song) : List Song :=
  songs.filter (fun s => s.bpm.isSome && s.key.isSome)

/-- The 12 pitch-class labels of jsonsorting.py lines 75-77. -/
def key_mapping : List String :=
  ["C", "C#", "D", "D#", "E", "F"] ++ ["F#", "G", "G#", "A", "A#", "B"]

/-- numpy mean of a list of rationals (0 for the empty list, where the
division by the length 0 is ℚ division by zero). -/
def listMean (l : List ℚ) : ℚ := l.sum / l.length

/-- numpy argmax over a list: the index of the FIRST maximal element,
0 on the empty list. -/
def argmaxFirst : List ℚ → Nat
  | [] => 0
  | x :: xs =>
    if xs = [] then 0
    else if x < xs.getD (argmaxFirst xs) 0 then argmaxFirst xs + 1 else 0

/-- Key estimation of jsonsorting.py lines 70-78 (identically
urltesting.py lines 64-72): time-average each row of the 12-bin chroma
matrix (`chroma.mean(axis=1)`), take `argmax`, map through `key_mapping`.
The chroma matrix is given as the list of its 12 rows. -/
def key_of_chroma (chroma : List (List ℚ)) : String :=
  key_mapping.getD (argmaxFirst (chroma.map listMean)) "C"

/-- analyze_song of jsonsorting.py lines 45-83, with the HTTP fetch and
the librosa decode/beat-track/chroma primitives as oracles.
`fetchStatus` is the status code of `requests.get` (`none` for a network
exception, caught by the try block); `decodeAudio` is `none` when
`librosa.load` or the feature calls raise, and otherwise yields the
estimated tempo and the 12-row chroma matrix.  The Python
`(None, None)` outcome is `none`. -/
def analyze_song (fetchStatus : String → Option Nat)
    (decodeAudio : String → Option (ℚ × List (List ℚ)))
    (stream_url : String) : Option (ℚ × String) :=
  match fetchStatus stream_url with
  | none => none
  | some code =>
    if code ≠ 200 then none
    else match decodeAudio stream_url with
      | none => none
      | some (tempo, chroma) => some (tempo, key_of_chroma chroma)

/-- Outcome of one iteration of the song loop of process_songs: the
(possibly updated) record, whether the song was fetched and analyzed
(`analyze_song` was reached), and whether the progress write of the full
song list ran on this iteration. -/
structure Stage2Step where
  song : Song
  analyzed : Bool
  saved : Bool
deriving DecidableEq, Repr

/-- One iteration of the song loop of process_songs (jsonsorting.py lines
114-143).  `resolve` is get_stream_url (`none` for a resolution failure);
`analyze` is analyze_song.  A record with no truthy `track_url` or no
truthy stream URL is skipped with `continue` before the analysis and
before the save; otherwise `bpm`/`key` are attached only when both
returned values are truthy (`if bpm and key:`), and the progress save
runs either way. -/
def process_song_step (resolve : String → Option String)
    (analyze : String → Option (ℚ × String)) (song : Song) : Stage2Step :=
  match song.track_url with
  | none => ⟨song, false, false⟩
  | some url =>
    if url = "" then ⟨song, false, false⟩
    else match resolve url with
      | none => ⟨song, false, false⟩
      | some surl =>
        if surl = "" then ⟨song, false, false⟩
        else match analyze surl with
          | none => ⟨song, true, true⟩
          | some (bpm, key) =>
            if bpm ≠ 0 ∧ key ≠ "" then
              ⟨{ song with bpm := some bpm, key := some key }, true, true⟩
            else ⟨song, true, true⟩

/-- Append a song to the group of its genre key, keeping first-appearance
order of genres (Python `defaultdict(list)` insertion order). -/
def addToGroup : List (String × List Song) → String → Song → List (String × List Song)
  | [], g, s => [(g, [s])]
  | (g', ss) :: rest, g, s =>
    if g' = g then (g', ss ++ [s]) :: rest else (g', ss) :: addToGroup rest g s

/-- sort_songs_by_genre of jsonsorting.py lines 10-24: group records by
`song.get("genre", "Unknown")`. -/
def sort_songs_by_genre (songs : List Song) : List (String × List Song) :=
  songs.foldl (fun acc s => addToGroup acc (s.genre.getD "Unknown") s) []

/-- Aggregate result of a stage-2 or stage-3 record loop: the records in
processing order, the number of records fetched/analyzed, and the number
of progress writes. -/
structure RunResult where
  songs : List Song
  processed : Nat
  saves : Nat
deriving DecidableEq, Repr

/-- The song loop of process_songs over one genre group, in order. -/
def process_group (resolve : String → Option String)
    (analyze : String → Option (ℚ × String)) : List Song → RunResult
  | [] => ⟨[], 0, 0⟩
  | s :: rest =>
    let r := process_song_step resolve analyze s
    let acc := process_group resolve analyze rest
    ⟨r.song :: acc.songs, (if r.analyzed then 1 else 0) + acc.processed,
      (if r.saved then 1 else 0) + acc.saves⟩

/-- process_songs of jsonsorting.py lines 107-143 after a successful
load: group by genre, then run the song loop over every group.  The
records come back in processing order (the Python code mutates the
shared dicts in place; grouping changes only the processing order, never
which records are processed). -/
def process_songs (resolve : String → Option String)
    (analyze : String → Option (ℚ × String)) (songs : List Song) : RunResult :=
  (sort_songs_by_genre songs).foldl
    (fun acc p =>
      let r := process_group resolve analyze p.2
      ⟨acc.songs ++ r.songs, acc.processed + r.processed, acc.saves + r.saves⟩)
    ⟨[], 0, 0⟩

/-- librosa.frames_to_time: frame index i at hop length h and sample rate
sr maps to time i * h / sr seconds. -/
def frames_to_time (sr hop_length : ℚ) (i : Nat) : ℚ := i * hop_length / sr

/-- Average RMS energy over the frames whose time lies in
[start_time, end_time) (deeperdata.py lines 36-41): the mean of the
selected RMS values, or 0.0 when no frame is selected. -/
def section_energy (rms frame_times : List ℚ) (start_time end_time : ℚ) : ℚ :=
  let sel := (frame_times.zip rms).filter
    fun p => decide (start_time ≤ p.1 ∧ p.1 < end_time)
  if sel.length > 0 then listMean (sel.map Prod.snd) else 0

/-- The section loop of extract_energy_by_section (deeperdata.py lines
31-42): each section ends where the next one starts, and the last
section ends at the final frame time (`frame_times[-1]`). -/
def energy_by_section_loop (rms frame_times : List ℚ) : List ℚ → List (ℚ × ℚ)
  | [] => []
  | [s] => [(s, section_energy rms frame_times s (frame_times.getLastD 0))]
  | s :: s' :: rest =>
    (s, section_energy rms frame_times s s') ::
      energy_by_section_loop rms frame_times (s' :: rest)

/-- The frame time axis of extract_energy_by_section (deeperdata.py line
28): `librosa.frames_to_time(range(len(rms)), ...)`. -/
def frameTimes (rms : List ℚ) (sr hop_length : ℚ) : List ℚ :=
  (List.range rms.length).map (frames_to_time sr hop_length)

/-- extract_energy_by_section of deeperdata.py lines 10-44, with the
librosa RMS extractor abstracted into the input list `rms` of per-frame
RMS values (librosa yields at least one frame for any decoded buffer). -/
def extract_energy_by_section (rms : List ℚ) (sr hop_length : ℚ)
    (segment_times : List ℚ) : List (ℚ × ℚ) :=
  energy_by_section_loop rms (frameTimes rms sr hop_length) segment_times

/-- Fuel-driven slicing loop: one step takes the next `n` elements and
recurses on the rest.  With fuel at least `l.length` and `n > 0` the fuel
never runs out before the list does. -/
def chunksOfAux (n : Nat) : Nat → List α → List (List α)
  | 0, _ => []
  | _, [] => []
  | fuel + 1, x :: xs => (x :: xs).take n :: chunksOfAux n fuel ((x :: xs).drop n)

/-- Python slicing loop `[l[i:i+n] for i in range(0, len(l), n)]`
(for n > 0). -/
def chunksOf (n : Nat) (l : List α) : List (List α) :=
  chunksOfAux n l.length l

/-- Bar grouping of extract_structure (deeperdata.py lines 85-88):
`[beat_frames[i:i + 4] for i in range(0, len(beat_frames), 4)]`. -/
def extract_bars (beat_frames : List Nat) : List (List Nat) :=
  chunksOf 4 beat_frames

/-- Bar times: each bar's beat frames converted to times with
librosa.frames_to_time at the default hop length 512. -/
def extract_bar_times (sr : ℚ) (beat_frames : List Nat) : List (List ℚ) :=
  (extract_bars beat_frames).map fun bar => bar.map (frames_to_time sr 512)

/-- Outcome of one iteration of the song loop of analyze_songs. -/
structure Stage3Step where
  song : Song
  fetched : Bool
  saved : Bool
deriving DecidableEq, Repr

/-- One iteration of the song loop of analyze_songs (deeperdata.py lines
155-194).  `resolve` is get_stream_url; `fetchStatus` the outcome of
requests.get (`none` for a network exception, caught by the try block);
`deep` is librosa.load plus analyze_song_deep (`none` for a
decode/analysis exception, caught).  Every failure is a `continue`: the
record is left unchanged, and since all failures happen before the save
statement, the progress file is not rewritten on that iteration. -/
def analyze_song_step (resolve : String → Option String)
    (fetchStatus : String → Option Nat) (deep : String → Option DeepAnalysis)
    (song : Song) : Stage3Step :=
  match song.track_url with
  | none => ⟨song, false, false⟩
  | some url =>
    if url = "" then ⟨song, false, false⟩
    else match resolve url with
      | none => ⟨song, false, false⟩
      | some surl =>
        if surl = "" then ⟨song, false, false⟩
        else match fetchStatus surl with
          | none => ⟨song, true, false⟩
          | some code =>
            if code ≠ 200 then ⟨song, true, false⟩
            else match deep surl with
              | none => ⟨song, true, false⟩
              | some d => ⟨{ song with features := some d }, true, true⟩

/-- analyze_songs of deeperdata.py lines 136-194 after a successful load:
the song loop in input order. -/
def analyze_songs (resolve : String → Option String)
    (fetchStatus : String → Option Nat) (deep : String → Option DeepAnalysis) :
    List Song → RunResult
  | [] => ⟨[], 0, 0⟩
  | s :: rest =>
    let r := analyze_song_step resolve fetchStatus deep s
    let acc := analyze_songs resolve fetchStatus deep rest
    ⟨r.song :: acc.songs, (if r.fetched then 1 else 0) + acc.processed,
      (if r.saved then 1 else 0) + acc.saves⟩

/-- The track loop of url_collection (SCdownloading.py lines 36-57):
resolve each playlist track's permalink, build the record, merge-insert.
A track resolution failure (`none`) skips only that track. -/
def url_collection_tracks (resolveTrack : String → Option Track)
    (store : List Track) : List String → List Track
  | [] => store
  | u :: rest =>
    match resolveTrack u with
    | none => url_collection_tracks resolveTrack store rest
    | some t => url_collection_tracks resolveTrack (merge_insert store t) rest

/-- The playlist loop of url_collection (SCdownloading.py lines 29-65):
`resolvePlaylist` yields the permalinks of a playlist's tracks, `none`
for a playlist-level resolution failure, which skips that playlist. -/
def url_collection (resolvePlaylist : String → Option (List String))
    (resolveTrack : String → Option Track) (store : List Track) :
    List String → List Track
  | [] => store
  | p :: rest =>
    match resolvePlaylist p with
    | none => url_collection resolvePlaylist resolveTrack store rest
    | some turls =>
      url_collection resolvePlaylist resolveTrack
        (url_collection_tracks resolveTrack store turls) rest

/-- State of a JSON store file as seen by `json.load`: absent, present
but not valid JSON, or well formed with parsed contents. -/
inductive FileState (α : Type) where
  | missing
  | malformed
  | wellFormed (data : α)

/-- Store load of SCdownloading.py lines 19-26: a missing file is first
created holding `[]` and then loaded; malformed content makes
`json.load` raise an uncaught `JSONDecodeError`, aborting the stage. -/
def load_stage1 : FileState (List Track) → Except String (List Track)
  | .missing => .ok []
  | .malformed => .error "json.JSONDecodeError"
  | .wellFormed d => .ok d

/-- Input load of jsonsorting.py lines 96-105 (identically lines 154-163
and deeperdata.py lines 144-153): `FileNotFoundError` and
`JSONDecodeError` are each reported and the function returns at once. -/
def load_stage2 {α : Type} : FileState α → Except String α
  | .missing => .error "input file not found"
  | .malformed => .error "failed to decode JSON"
  | .wellFormed d => .ok d

/-- url_collection including its store load: `none` when the stage
aborted during the load. -/
def url_collection_file (rp : String → Option (List String))
    (rt : String → Option Track) (file : FileState (List Track))
    (playlist_urls : List String) : Option (List Track) :=
  match load_stage1 file with
  | .error _ => none
  | .ok store => some (url_collection rp rt store playlist_urls)

/-- process_songs including its input load. -/
def process_songs_file (resolve : String → Option String)
    (analyze : String → Option (ℚ × String)) (file : FileState (List Song)) :
    Option RunResult :=
  match load_stage2 file with
  | .error _ => none
  | .ok songs => some (process_songs resolve analyze songs)

/-- analyze_songs including its input load. -/
def analyze_songs_file (resolve : String → Option String)
    (fetchStatus : String → Option Nat) (deep : String → Option DeepAnalysis)
    (file : FileState (List Song)) : Option RunResult :=
  match load_stage2 file with
  | .error _ => none
  | .ok songs => some (analyze_songs resolve fetchStatus deep songs)

/-! ## Theorems -/

lemma length_filter_split {α : Type} (p : α → Bool) (l : List α) :
    (l.filter p).length + (l.filter fun a => !(p a)).length = l.length := by
  induction l with
  | nil => simp
  | cons x xs ih => by_cases h : p x <;> simp [List.filter_cons, h] <;> omega

/-- C2: merge_insert appends the candidate iff no structurally-equal
record already exists in the store, and is otherwise a no-op; inserting a
structurally-identical record twice changes nothing (in particular the
store's size), and a candidate that shares `track_url` with a stored
record while differing in some other field (and equals no stored record)
is appended as a new record. -/
theorem merge_insert_spec (store : List Track) (cand : Track) :
    (cand ∉ store → merge_insert store cand = store ++ [cand]) ∧
    (cand ∈ store → merge_insert store cand = store) ∧
    merge_insert (merge_insert store cand) cand = merge_insert store cand ∧
    (merge_insert (merge_insert store cand) cand).length
      = (merge_insert store cand).length ∧
    (∀ r ∈ store, r.track_url = cand.track_url → r ≠ cand → cand ∉ store →
      merge_insert store cand = store ++ [cand]) := by
  have hmem : cand ∈ merge_insert store cand := by
    by_cases h : cand ∈ store <;> simp [merge_insert, h]
  have hidem : merge_insert (merge_insert store cand) cand
      = merge_insert store cand := by
    rw [merge_insert, if_pos hmem]
  refine ⟨?_, ?_, hidem, by rw [hidem], ?_⟩
  · intro h; simp [merge_insert, h]
  · intro h; simp [merge_insert, h]
  · intro r _ _ _ h; simp [merge_insert, h]

/-- C2 witness: inserting a fresh record appends it; re-inserting the
identical record leaves the store (and its size) unchanged. -/
theorem merge_insert_spec_witness :
    (Track.mk "t" "a" "u" 1 "g") ∉ ([] : List Track) ∧
    merge_insert [] (Track.mk "t" "a" "u" 1 "g") = [Track.mk "t" "a" "u" 1 "g"] ∧
    merge_insert (merge_insert [] (Track.mk "t" "a" "u" 1 "g"))
        (Track.mk "t" "a" "u" 1 "g")
      = merge_insert [] (Track.mk "t" "a" "u" 1 "g") := by
  refine ⟨by decide, ?_, ?_⟩
  · exact (merge_insert_spec [] (Track.mk "t" "a" "u" 1 "g")).1 (by decide)
  · exact (merge_insert_spec [] (Track.mk "t" "a" "u" 1 "g")).2.2.1

/-- C3: the cleanup filter keeps exactly the records having both `bpm`
and `key`: the output length is the input length minus the number of
records missing one of them, every output record has both fields, and
the kept records appear in their input order (the output is a sublist of
the input). -/
theorem clean_analyzed_songs_spec (songs : List Song) :
    (clean_analyzed_songs songs).length
      = songs.length
        - (songs.filter fun s => !(s.bpm.isSome && s.key.isSome)).length ∧
    (∀ s ∈ clean_analyzed_songs songs, s.bpm.isSome ∧ s.key.isSome) ∧
    (clean_analyzed_songs songs).Sublist songs := by
  refine ⟨?_, ?_, List.filter_sublist songs⟩
  · have h := length_filter_split (fun s => s.bpm.isSome && s.key.isSome) songs
    unfold clean_analyzed_songs
    omega
  · intro s hs
    have h := List.of_mem_filter hs
    simpa using h

/-- C3 witness: on a two-record store where only the first record has
both fields, the filter keeps exactly that record, in place. -/
theorem clean_analyzed_songs_spec_witness :
    (clean_analyzed_songs
        [Song.mk "t" "a" (some "u") 1 (some "g") (some 120) (some "C") none,
         Song.mk "s" "b" (some "v") 2 (some "g") none none none]).length = 1 ∧
    (clean_analyzed_songs
        [Song.mk "t" "a" (some "u") 1 (some "g") (some 120) (some "C") none,
         Song.mk "s" "b" (some "v") 2 (some "g") none none none]).Sublist
      [Song.mk "t" "a" (some "u") 1 (some "g") (some 120) (some "C") none,
       Song.mk "s" "b" (some "v") 2 (some "g") none none none] := by
  constructor
  · rw [(clean_analyzed_songs_spec
      [Song.mk "t" "a" (some "u") 1 (some "g") (some 120) (some "C") none,
       Song.mk "s" "b" (some "v") 2 (some "g") none none none]).1]
    rfl
  · exact (clean_analyzed_songs_spec
      [Song.mk "t" "a" (some "u") 1 (some "g") (some 120) (some "C") none,
       Song.mk "s" "b" (some "v") 2 (some "g") none none none]).2.2

lemma argmaxFirst_cons (x : ℚ) (xs : List ℚ) (h : xs ≠ []) :
    argmaxFirst (x :: xs) =
      if x < xs.getD (argmaxFirst xs) 0 then argmaxFirst xs + 1 else 0 := by
  simp [argmaxFirst, h]

lemma argmaxFirst_lt_length (l : List ℚ) (hl : l ≠ []) :
    argmaxFirst l < l.length := by
  induction l with
  | nil => exact absurd rfl hl
  | cons x xs ih =>
    rcases eq_or_ne xs [] with h | h
    · subst h; simp [argmaxFirst]
    · rw [argmaxFirst_cons x xs h]
      split
      · have := ih h; simp only [List.length_cons]; omega
      · simp

lemma argmaxFirst_is_max (l : List ℚ) :
    ∀ j < l.length, l.getD j 0 ≤ l.getD (argmaxFirst l) 0 := by
  induction l with
  | nil => intro j hj; simp at hj
  | cons x xs ih =>
    intro j hj
    rcases eq_or_ne xs [] with h | h
    · subst h
      have hj0 : j = 0 := by simpa using hj
      subst hj0
      simp [argmaxFirst]
    · rw [argmaxFirst_cons x xs h]
      by_cases hx : x < xs.getD (argmaxFirst xs) 0
      · rw [if_pos hx]
        cases j with
        | zero => simpa using le_of_lt hx
        | succ k =>
          have hk : k < xs.length := by simpa using hj
          simpa using ih k hk
      · rw [if_neg hx]
        push_neg at hx
        cases j with
        | zero => simp
        | succ k =>
          have hk : k < xs.length := by simpa using hj
          have h1 : xs.getD k 0 ≤ xs.getD (argmaxFirst xs) 0 := ih k hk
          simpa using le_trans h1 hx

lemma argmaxFirst_is_first (l : List ℚ) :
    ∀ j < argmaxFirst l, l.getD j 0 < l.getD (argmaxFirst l) 0 := by
  induction l with
  | nil => intro j hj; simp [argmaxFirst] at hj
  | cons x xs ih =>
    intro j hj
    rcases eq_or_ne xs [] with h | h
    · subst h; simp [argmaxFirst] at hj
    · rw [argmaxFirst_cons x xs h] at hj ⊢
      by_cases hx : x < xs.getD (argmaxFirst xs) 0
      · rw [if_pos hx] at hj ⊢
        cases j with
        | zero => simpa using hx
        | succ k =>
          have hk : k < argmaxFirst xs := by omega
          simpa using ih k hk
      · rw [if_neg hx] at hj; omega

/-- C4: key estimation selects, among the 12 time-averaged chroma bins,
the first bin of maximal average, and maps it through the fixed 12-label
table, so the result is always one of those 12 labels. -/
theorem key_of_chroma_spec (chroma : List (List ℚ)) (h : chroma.length = 12) :
    key_of_chroma chroma ∈ key_mapping ∧
    key_mapping.length = 12 ∧
    key_of_chroma chroma
      = key_mapping.getD (argmaxFirst (chroma.map listMean)) "C" ∧
    (∀ j < 12, (chroma.map listMean).getD j 0
      ≤ (chroma.map listMean).getD (argmaxFirst (chroma.map listMean)) 0) ∧
    (∀ j < argmaxFirst (chroma.map listMean),
      (chroma.map listMean).getD j 0
        < (chroma.map listMean).getD (argmaxFirst (chroma.map listMean)) 0) := by
  have hlen : (chroma.map listMean).length = 12 := by simp [h]
  have hne : chroma.map listMean ≠ [] := by
    intro hc; rw [hc] at hlen; simp at hlen
  have hidx : argmaxFirst (chroma.map listMean) < 12 := by
    have := argmaxFirst_lt_length (chroma.map listMean) hne
    omega
  refine ⟨?_, by rfl, by rfl, ?_, argmaxFirst_is_first (chroma.map listMean)⟩
  · rw [show key_of_chroma chroma
        = key_mapping.getD (argmaxFirst (chroma.map listMean)) "C" from rfl]
    have hk : argmaxFirst (chroma.map listMean) < key_mapping.length := by
      simpa [key_mapping] using hidx
    rw [List.getD_eq_getElem key_mapping "C" hk]
    exact List.getElem_mem hk
  · intro j hj
    exact argmaxFirst_is_max (chroma.map listMean) j (by omega)

/-- C4 witness: on a concrete 12-row chroma matrix whose last bin has
the greatest average energy, the estimated key is one of the 12 labels
and every bin's average is at most the selected bin's. -/
theorem key_of_chroma_spec_witness :
    key_of_chroma [[1], [2], [3], [4], [5], [6], [7], [8], [9], [10], [11], [12]]
      ∈ key_mapping ∧
    (∀ j < 12,
      (([[1], [2], [3], [4], [5], [6], [7], [8], [9], [10], [11], [12]] :
          List (List ℚ)).map listMean).getD j 0
        ≤ (([[1], [2], [3], [4], [5], [6], [7], [8], [9], [10], [11], [12]] :
          List (List ℚ)).map listMean).getD
            (argmaxFirst (([[1], [2], [3], [4], [5], [6], [7], [8], [9], [10],
              [11], [12]] : List (List ℚ)).map listMean)) 0) :=
  ⟨(key_of_chroma_spec
      [[1], [2], [3], [4], [5], [6], [7], [8], [9], [10], [11], [12]] rfl).1,
   (key_of_chroma_spec
      [[1], [2], [3], [4], [5], [6], [7], [8], [9], [10], [11], [12]] rfl).2.2.2.1⟩

lemma energy_by_section_loop_length (rms ft segs : List ℚ) :
    (energy_by_section_loop rms ft segs).length = segs.length := by
  induction segs with
  | nil => simp [energy_by_section_loop]
  | cons s rest ih =>
    cases rest with
    | nil => simp [energy_by_section_loop]
    | cons s' r =>
      simp only [energy_by_section_loop, List.length_cons] at ih ⊢
      omega

lemma energy_by_section_loop_map_fst (rms ft segs : List ℚ) :
    (energy_by_section_loop rms ft segs).map Prod.fst = segs := by
  induction segs with
  | nil => simp [energy_by_section_loop]
  | cons s rest ih =>
    cases rest with
    | nil => simp [energy_by_section_loop]
    | cons s' r => simp [energy_by_section_loop, ih]

lemma energy_by_section_loop_getD (rms ft : List ℚ) :
    ∀ (segs : List ℚ) (i : Nat), i < segs.length →
      (energy_by_section_loop rms ft segs).getD i (0, 0)
        = (segs.getD i 0,
            section_energy rms ft (segs.getD i 0)
              (if i + 1 < segs.length then segs.getD (i + 1) 0
               else ft.getLastD 0)) := by
  intro segs
  induction segs with
  | nil => intro i hi; simp at hi
  | cons s rest ih =>
    intro i hi
    cases rest with
    | nil =>
      have hi0 : i = 0 := by simpa using hi
      subst hi0
      simp [energy_by_section_loop]
    | cons s' r =>
      cases i with
      | zero =>
        have h1 : 0 + 1 < (s :: s' :: r).length := by simp
        simp [energy_by_section_loop, h1]
      | succ k =>
        have hk : k < (s' :: r).length := by simpa using hi
        have heq := ih k hk
        simp only [energy_by_section_loop, List.getD_cons_succ]
        rw [heq]
        simp only [List.length_cons, List.getD_cons_succ]
        have hcond : (k + 1 + 1 < r.length + 1 + 1) ↔ (k + 1 < r.length + 1) := by
          omega
        simp only [hcond]

/-- C5: per-section energy returns one entry per section, entry i being
the section's start time paired with the average RMS energy of the
frames whose times fall in [start, next start), the last section ending
at the final frame time; the start times are exactly the given section
boundaries in order, so strictly increasing boundaries give strictly
increasing start times, and the first start time equals the first
boundary. -/
theorem extract_energy_by_section_spec (rms : List ℚ) (sr hop_length : ℚ)
    (segment_times : List ℚ) (hrms : rms ≠ []) :
    (extract_energy_by_section rms sr hop_length segment_times).length
      = segment_times.length ∧
    (extract_energy_by_section rms sr hop_length segment_times).map Prod.fst
      = segment_times ∧
    (∀ i, i < segment_times.length →
      (extract_energy_by_section rms sr hop_length segment_times).getD i (0, 0)
        = (segment_times.getD i 0,
            section_energy rms (frameTimes rms sr hop_length)
              (segment_times.getD i 0)
              (if i + 1 < segment_times.length then segment_times.getD (i + 1) 0
               else (frameTimes rms sr hop_length).getLastD 0))) ∧
    (List.Pairwise (· < ·) segment_times →
      List.Pairwise (· < ·)
        ((extract_energy_by_section rms sr hop_length segment_times).map
          Prod.fst)) ∧
    ((extract_energy_by_section rms sr hop_length segment_times).map
        Prod.fst).headD 0 = segment_times.headD 0 ∧
    frameTimes rms sr hop_length ≠ [] := by
  have hmap := energy_by_section_loop_map_fst rms
    (frameTimes rms sr hop_length) segment_times
  refine ⟨energy_by_section_loop_length rms (frameTimes rms sr hop_length)
      segment_times,
    hmap, energy_by_section_loop_getD rms (frameTimes rms sr hop_length)
      segment_times,
    ?_, by rw [show (extract_energy_by_section rms sr hop_length
        segment_times).map Prod.fst = segment_times from hmap], ?_⟩
  · intro hp
    rw [show (extract_energy_by_section rms sr hop_length segment_times).map
      Prod.fst = segment_times from hmap]
    exact hp
  · simpa [frameTimes, List.range_eq_nil] using hrms

/-- C5 witness: on a 2-frame buffer split into sections that start at
times 0 and 1, the energy list has entry i = (boundary i, mean energy of
the frames in that section's range). -/
theorem extract_energy_by_section_spec_witness :
    ([1, 2] : List ℚ) ≠ [] ∧
    (extract_energy_by_section [1, 2] 1 1 [0, 1]).length = 2 ∧
    (extract_energy_by_section [1, 2] 1 1 [0, 1]).map Prod.fst = [0, 1] := by
  refine ⟨by decide, ?_, (extract_energy_by_section_spec [1, 2] 1 1 [0, 1]
    (by decide)).2.1⟩
  rw [(extract_energy_by_section_spec [1, 2] 1 1 [0, 1] (by decide)).1]
  rfl

/-- C10: a section whose time range [start, end) captures no RMS frame
time is reported with average energy 0 rather than failing or producing
an undefined mean. -/
theorem extract_energy_empty_section_spec (rms : List ℚ) (sr hop_length : ℚ)
    (segment_times : List ℚ) (i : Nat) (hi : i < segment_times.length)
    (hempty : ((frameTimes rms sr hop_length).zip rms).filter
        (fun p => decide (segment_times.getD i 0 ≤ p.1 ∧
            p.1 < (if i + 1 < segment_times.length
                   then segment_times.getD (i + 1) 0
                   else (frameTimes rms sr hop_length).getLastD 0))) = []) :
    ((extract_energy_by_section rms sr hop_length segment_times).getD
        i (0, 0)).2 = 0 := by
  have h := energy_by_section_loop_getD rms (frameTimes rms sr hop_length)
    segment_times i hi
  show ((energy_by_section_loop rms (frameTimes rms sr hop_length)
      segment_times).getD i (0, 0)).2 = 0
  rw [h]
  show section_energy rms (frameTimes rms sr hop_length)
      (segment_times.getD i 0)
      (if i + 1 < segment_times.length then segment_times.getD (i + 1) 0
       else (frameTimes rms sr hop_length).getLastD 0) = 0
  simp only [section_energy]
  rw [hempty]
  simp

/-- C10 witness: with frame times 0 and 1 and a middle section covering
[2, 3), the middle section selects no frame and reports energy 0. -/
theorem extract_energy_empty_section_spec_witness :
    (1 : Nat) < ([0, 2, 3] : List ℚ).length ∧
    ((extract_energy_by_section [1, 2] 1 1 [0, 2, 3]).getD 1 (0, 0)).2 = 0 := by
  have hft : frameTimes [1, 2] 1 1 = [0, 1] := by
    norm_num [frameTimes, frames_to_time, List.range_succ]
  refine ⟨by norm_num, ?_⟩
  apply extract_energy_empty_section_spec [1, 2] 1 1 [0, 2, 3] 1 (by norm_num)
  rw [hft]
  norm_num [List.filter]

lemma chunksOfAux_nil (n : Nat) (fuel : Nat) :
    chunksOfAux n fuel ([] : List α) = [] := by
  cases fuel <;> rfl

lemma chunksOfAux_join {α : Type} (n : Nat) (hn : n ≠ 0) :
    ∀ (fuel : Nat) (l : List α), l.length ≤ fuel →
      (chunksOfAux n fuel l).flatten = l := by
  intro fuel
  induction fuel with
  | zero =>
    intro l hl
    have h0 : l = [] := List.length_eq_zero.mp (Nat.le_zero.mp hl)
    subst h0; rfl
  | succ f ih =>
    intro l hl
    cases l with
    | nil => rfl
    | cons x xs =>
      simp only [chunksOfAux, List.flatten_cons]
      rw [ih]
      · exact List.take_append_drop n (x :: xs)
      · simp only [List.length_drop, List.length_cons]
        simp only [List.length_cons] at hl
        omega

lemma chunksOfAux_sizes {α : Type} (n : Nat) (hn : n ≠ 0) :
    ∀ (fuel : Nat) (l : List α), l.length ≤ fuel →
      ∀ c ∈ chunksOfAux n fuel l, 0 < c.length ∧ c.length ≤ n := by
  intro fuel
  induction fuel with
  | zero =>
    intro l hl c hc
    have h0 : l = [] := List.length_eq_zero.mp (Nat.le_zero.mp hl)
    subst h0; simp [chunksOfAux_nil] at hc
  | succ f ih =>
    intro l hl c hc
    cases l with
    | nil => simp [chunksOfAux_nil] at hc
    | cons x xs =>
      simp only [chunksOfAux, List.mem_cons] at hc
      rcases hc with rfl | hc
      · constructor
        · simp only [List.length_take, List.length_cons]
          omega
        · simp only [List.length_take]
          omega
      · refine ih _ ?_ c hc
        simp only [List.length_drop, List.length_cons]
        simp only [List.length_cons] at hl
        omega

lemma chunksOfAux_dropLast {α : Type} (n : Nat) (hn : n ≠ 0) :
    ∀ (fuel : Nat) (l : List α), l.length ≤ fuel →
      ∀ c ∈ (chunksOfAux n fuel l).dropLast, c.length = n := by
  intro fuel
  induction fuel with
  | zero =>
    intro l hl c hc
    have h0 : l = [] := List.length_eq_zero.mp (Nat.le_zero.mp hl)
    subst h0; simp [chunksOfAux_nil] at hc
  | succ f ih =>
    intro l hl c hc
    cases l with
    | nil => simp [chunksOfAux_nil] at hc
    | cons x xs =>
      simp only [chunksOfAux] at hc
      rcases hr : chunksOfAux n f ((x :: xs).drop n) with _ | ⟨y, ys⟩
      · rw [hr] at hc; simp at hc
      · rw [hr] at hc
        rw [List.dropLast_cons₂] at hc
        rcases List.mem_cons.mp hc with rfl | hc'
        · have hd : (x :: xs).drop n ≠ [] := by
            intro h0
            rw [h0, chunksOfAux_nil] at hr
            exact List.noConfusion hr
          have hlt : n < (x :: xs).length := by
            by_contra hle
            push_neg at hle
            exact hd (List.drop_eq_nil_of_le hle)
          simp only [List.length_take]
          omega
        · refine ih _ ?_ c (by rw [hr]; exact hc')
          simp only [List.length_drop, List.length_cons]
          simp only [List.length_cons] at hl
          omega

/-- C8 counterexample: with 5 detected beat frames the bar grouping
yields groups of sizes 4 and 1, so not every bar has exactly 4 beats. -/
theorem extract_bars_not_all_length_four :
    ((extract_bars [10, 20, 30, 40, 50]).map List.length = [4, 1]) ∧
    ((extract_bars [10, 20, 30, 40, 50]).all fun c => c.length == 4) = false := by
  constructor <;> rfl

/-- C8 amended: bar grouping partitions the detected beats, in order,
into consecutive groups of 4, except that the final group holds the
remaining 1-3 beats when the beat count is not a multiple of 4: joined
back together the groups give exactly the beat sequence, every group
except the last has exactly 4 beats, every group is nonempty with at
most 4 beats, and the reported bars are exactly these groups converted
to times. -/
theorem extract_bars_spec (beat_frames : List Nat) (sr : ℚ) :
    (extract_bars beat_frames).flatten = beat_frames ∧
    (∀ c ∈ (extract_bars beat_frames).dropLast, c.length = 4) ∧
    (∀ c ∈ extract_bars beat_frames, 0 < c.length ∧ c.length ≤ 4) ∧
    extract_bar_times sr beat_frames
      = (extract_bars beat_frames).map fun bar =>
          bar.map (frames_to_time sr 512) := by
  refine ⟨chunksOfAux_join 4 (by omega) _ beat_frames le_rfl,
    chunksOfAux_dropLast 4 (by omega) _ beat_frames le_rfl,
    chunksOfAux_sizes 4 (by omega) _ beat_frames le_rfl, rfl⟩

/-- C8 witness: on the 5-beat sequence the groups joined together give
back the beat sequence and the non-final group has exactly 4 beats. -/
theorem extract_bars_spec_witness :
    (extract_bars [10, 20, 30, 40, 50]).flatten = [10, 20, 30, 40, 50] ∧
    (∀ c ∈ (extract_bars [10, 20, 30, 40, 50]).dropLast, c.length = 4) :=
  ⟨(extract_bars_spec [10, 20, 30, 40, 50] 1).1,
   (extract_bars_spec [10, 20, 30, 40, 50] 1).2.1⟩

/-- C1 counterexample: stage 2 re-fetches and re-analyzes a record that
already carries bpm and key, and stage 3 re-fetches a record that
already carries features: re-running a stage from a saved file does not
restrict processing to the records missing the stage's target fields. -/
theorem stages_reprocess_completed_records :
    (process_songs (fun _ => some "s") (fun _ => some (120, "C"))
      [Song.mk "t" "a" (some "u") 1 (some "g") (some 100) (some "D")
        none]).processed = 1 ∧
    (analyze_songs (fun _ => some "s") (fun _ => some 200)
      (fun _ => some (DeepAnalysis.mk [] 120 [] [] []))
      [Song.mk "t" "a" (some "u") 1 (some "g") (some 100) (some "D")
        (some (DeepAnalysis.mk [] 120 [] [] []))]).processed = 1 := by
  constructor <;> rfl

/-- C1 amended: re-running stage 2 or stage 3 from a saved file
reprocesses every record whose `track_url` and resolved stream URL are
truthy, whether or not the record already carries the stage's target
fields: the decision to fetch and re-analyze never consults `bpm`,
`key` or `features`. -/
theorem stage_reprocessing_ignores_target_fields
    (resolve : String → Option String) (analyze : String → Option (ℚ × String))
    (fetchStatus : String → Option Nat) (deep : String → Option DeepAnalysis)
    (s : Song) (b : Option ℚ) (k : Option String) (d : Option DeepAnalysis) :
    (process_song_step resolve analyze
        { s with bpm := b, key := k, features := d }).analyzed
      = (process_song_step resolve analyze s).analyzed ∧
    (analyze_song_step resolve fetchStatus deep
        { s with bpm := b, key := k, features := d }).fetched
      = (analyze_song_step resolve fetchStatus deep s).fetched ∧
    ((process_song_step resolve analyze s).analyzed = true ↔
      ∃ u surl, s.track_url = some u ∧ u ≠ "" ∧
        resolve u = some surl ∧ surl ≠ "") := by
  obtain ⟨t, a, tu, du, g, bp, ke, fe⟩ := s
  refine ⟨?_, ?_, ?_⟩
  · cases tu with
    | none => rfl
    | some u =>
      by_cases hu : u = ""
      · simp [process_song_step, hu]
      · cases hr : resolve u with
        | none => simp [process_song_step, hu, hr]
        | some surl =>
          by_cases hs : surl = ""
          · simp [process_song_step, hu, hr, hs]
          · cases ha : analyze surl with
            | none => simp [process_song_step, hu, hr, hs, ha]
            | some p =>
              obtain ⟨bpm, key⟩ := p
              by_cases hbk : bpm ≠ 0 ∧ key ≠ "" <;>
                simp [process_song_step, hu, hr, hs, ha, hbk]
  · cases tu with
    | none => rfl
    | some u =>
      by_cases hu : u = ""
      · simp [analyze_song_step, hu]
      · cases hr : resolve u with
        | none => simp [analyze_song_step, hu, hr]
        | some surl =>
          by_cases hs : surl = ""
          · simp [analyze_song_step, hu, hr, hs]
          · cases hf : fetchStatus surl with
            | none => simp [analyze_song_step, hu, hr, hs, hf]
            | some code =>
              by_cases hc : code = 200
              · cases hd : deep surl with
                | none => simp [analyze_song_step, hu, hr, hs, hf, hc, hd]
                | some dd => simp [analyze_song_step, hu, hr, hs, hf, hc, hd]
              · simp [analyze_song_step, hu, hr, hs, hf, hc]
  · constructor
    · intro h
      cases tu with
      | none => simp [process_song_step] at h
      | some u =>
        by_cases hu : u = ""
        · simp [process_song_step, hu] at h
        · cases hr : resolve u with
          | none => simp [process_song_step, hu, hr] at h
          | some surl =>
            by_cases hs : surl = ""
            · simp [process_song_step, hu, hr, hs] at h
            · exact ⟨u, surl, rfl, hu, hr, hs⟩
    · rintro ⟨u, surl, htu, hu, hr, hs⟩
      have htu' : tu = some u := htu
      subst htu'
      cases ha : analyze surl with
      | none => simp [process_song_step, hu, hr, hs, ha]
      | some p =>
        obtain ⟨bpm, key⟩ := p
        by_cases hbk : bpm ≠ 0 ∧ key ≠ "" <;>
          simp [process_song_step, hu, hr, hs, ha, hbk]

/-- C1 amended witness: on a concrete record, adding bpm, key and
features does not change whether stage 2 analyzes it. -/
theorem stage_reprocessing_ignores_target_fields_witness :
    (process_song_step (fun _ => some "s") (fun _ => none)
        { Song.mk "t" "a" (some "u") 1 (some "g") none none none with
          bpm := some 100, key := some "D",
          features := some (DeepAnalysis.mk [] 120 [] [] []) }).analyzed
      = (process_song_step (fun _ => some "s") (fun _ => none)
          (Song.mk "t" "a" (some "u") 1 (some "g") none none none)).analyzed :=
  (stage_reprocessing_ignores_target_fields (fun _ => some "s") (fun _ => none)
    (fun _ => some 200) (fun _ => none)
    (Song.mk "t" "a" (some "u") 1 (some "g") none none none)
    (some 100) (some "D") (some (DeepAnalysis.mk [] 120 [] [] []))).1

/-- C9: when analysis succeeds but returns a tempo of exactly 0 (a falsy
float), stage 2 attaches neither bpm nor key — the record stays exactly
as it was — yet the full song list is still persisted on that iteration
and the loop continues with the remaining records. -/
theorem process_songs_zero_tempo_spec (resolve : String → Option String)
    (analyze : String → Option (ℚ × String)) (s : Song) (rest : List Song)
    (url surl k : String)
    (hurl : s.track_url = some url) (hu : url ≠ "")
    (hres : resolve url = some surl) (hsurl : surl ≠ "")
    (hana : analyze surl = some (0, k)) :
    process_song_step resolve analyze s = ⟨s, true, true⟩ ∧
    process_group resolve analyze (s :: rest)
      = ⟨s :: (process_group resolve analyze rest).songs,
         1 + (process_group resolve analyze rest).processed,
         1 + (process_group resolve analyze rest).saves⟩ := by
  have hstep : process_song_step resolve analyze s = ⟨s, true, true⟩ := by
    obtain ⟨t, a, tu, du, g, bp, ke, fe⟩ := s
    have htu : tu = some url := hurl
    subst htu
    simp [process_song_step, hu, hres, hsurl, hana]
  exact ⟨hstep, by simp [process_group, hstep]⟩

/-- C9 witness: a concrete record analyzed with tempo 0 is left
unchanged while the iteration still reports an analysis attempt and a
progress save. -/
theorem process_songs_zero_tempo_spec_witness :
    process_song_step (fun _ => some "s") (fun _ => some (0, "C"))
        (Song.mk "t" "a" (some "u") 1 (some "g") none none none)
      = ⟨Song.mk "t" "a" (some "u") 1 (some "g") none none none,
         true, true⟩ :=
  (process_songs_zero_tempo_spec (fun _ => some "s") (fun _ => some (0, "C"))
    (Song.mk "t" "a" (some "u") 1 (some "g") none none none) []
    "u" "s" "C" rfl (by decide) rfl (by decide) rfl).1

lemma url_collection_tracks_append (rt : String → Option Track)
    (store : List Track) (l₁ l₂ : List String) :
    url_collection_tracks rt store (l₁ ++ l₂)
      = url_collection_tracks rt (url_collection_tracks rt store l₁) l₂ := by
  induction l₁ generalizing store with
  | nil => rfl
  | cons u us ih =>
    simp only [List.cons_append]
    cases h : rt u with
    | none => simp only [url_collection_tracks, h]; exact ih store
    | some tr => simp only [url_collection_tracks, h]; exact ih (merge_insert store tr)

lemma url_collection_append (rp : String → Option (List String))
    (rt : String → Option Track) (store : List Track) (l₁ l₂ : List String) :
    url_collection rp rt store (l₁ ++ l₂)
      = url_collection rp rt (url_collection rp rt store l₁) l₂ := by
  induction l₁ generalizing store with
  | nil => rfl
  | cons p ps ih =>
    simp only [List.cons_append]
    cases h : rp p with
    | none => simp only [url_collection, h]; exact ih store
    | some turls =>
      simp only [url_collection, h]
      exact ih (url_collection_tracks rt store turls)

/-- C6: every per-item failure is caught at the item level and skips
exactly that item, leaving the accumulated store unchanged: a failing
playlist resolution removes just that playlist from the run, a failing
track resolution removes just that track, and in stage 3 a network
error, a non-200 fetch status, and a decode/analysis error each leave
the record unchanged, skip its save, and let the loop continue over the
remaining records; no such failure aborts the run (each loop is a total
function of the remaining items). -/
theorem skip_and_continue_spec
    (rp : String → Option (List String)) (rt : String → Option Track)
    (resolve : String → Option String) (fetchStatus : String → Option Nat)
    (deep : String → Option DeepAnalysis) (store : List Track)
    (ps₁ ps₂ : List String) (badp : String) (us₁ us₂ : List String)
    (badu : String) (s : Song) (rest : List Song) (url surl : String)
    (hbadp : rp badp = none) (hbadu : rt badu = none)
    (hurl : s.track_url = some url) (hu : url ≠ "")
    (hres : resolve url = some surl) (hsurl : surl ≠ "") :
    url_collection rp rt store (ps₁ ++ badp :: ps₂)
      = url_collection rp rt store (ps₁ ++ ps₂) ∧
    url_collection_tracks rt store (us₁ ++ badu :: us₂)
      = url_collection_tracks rt store (us₁ ++ us₂) ∧
    (fetchStatus surl = none →
      analyze_song_step resolve fetchStatus deep s = ⟨s, true, false⟩) ∧
    (∀ c, fetchStatus surl = some c → c ≠ 200 →
      analyze_song_step resolve fetchStatus deep s = ⟨s, true, false⟩) ∧
    (fetchStatus surl = some 200 → deep surl = none →
      analyze_song_step resolve fetchStatus deep s = ⟨s, true, false⟩) ∧
    (analyze_song_step resolve fetchStatus deep s = ⟨s, true, false⟩ →
      analyze_songs resolve fetchStatus deep (s :: rest)
        = ⟨s :: (analyze_songs resolve fetchStatus deep rest).songs,
           1 + (analyze_songs resolve fetchStatus deep rest).processed,
           (analyze_songs resolve fetchStatus deep rest).saves⟩) := by
  obtain ⟨t, a, tu, du, g, bp, ke, fe⟩ := s
  have htu : tu = some url := hurl
  subst htu
  refine ⟨?_, ?_, ?_, ?_, ?_, ?_⟩
  · rw [url_collection_append, url_collection_append]
    simp only [url_collection, hbadp]
  · rw [url_collection_tracks_append, url_collection_tracks_append]
    simp only [url_collection_tracks, hbadu]
  · intro hf
    simp [analyze_song_step, hu, hres, hsurl, hf]
  · intro c hf hc
    simp [analyze_song_step, hu, hres, hsurl, hf, hc]
  · intro hf hd
    simp [analyze_song_step, hu, hres, hsurl, hf, hd]
  · intro hstep
    simp [analyze_songs, hstep]

/-- C6 witness: a concrete failing playlist is skipped without touching
the rest of the run, and a concrete 404 fetch leaves the record
unchanged with no save. -/
theorem skip_and_continue_spec_witness :
    url_collection (fun _ => none) (fun _ => none) [] (["p1"] ++ "bad" :: ["p2"])
      = url_collection (fun _ => none) (fun _ => none) [] (["p1"] ++ ["p2"]) ∧
    analyze_song_step (fun _ => some "s") (fun _ => some 404) (fun _ => none)
        (Song.mk "t" "a" (some "u") 1 (some "g") none none none)
      = ⟨Song.mk "t" "a" (some "u") 1 (some "g") none none none,
         true, false⟩ := by
  refine ⟨?_, ?_⟩
  · exact (skip_and_continue_spec (fun _ => none) (fun _ => none)
      (fun _ => some "s") (fun _ => some 404) (fun _ => none) []
      ["p1"] ["p2"] "bad" [] [] "bad"
      (Song.mk "t" "a" (some "u") 1 (some "g") none none none) []
      "u" "s" rfl rfl rfl (by decide) rfl (by decide)).1
  · exact (skip_and_continue_spec (fun _ => none) (fun _ => none)
      (fun _ => some "s") (fun _ => some 404) (fun _ => none) []
      ["p1"] ["p2"] "bad" [] [] "bad"
      (Song.mk "t" "a" (some "u") 1 (some "g") none none none) []
      "u" "s" rfl rfl rfl (by decide) rfl (by decide)).2.2.2.1
      404 rfl (by decide)

/-- C7: the stage-1 store load creates an empty store when the file is
missing; malformed content is fatal in every stage — the load yields an
error and the stage runs nothing; in stages 2 and 3 a missing input
file likewise aborts; and whenever a stage does run, it runs exactly on
the loaded contents, never on an empty list substituted for prior
saved data. -/
theorem store_load_spec (rp : String → Option (List String))
    (rt : String → Option Track) (urls : List String)
    (resolve : String → Option String) (analyze : String → Option (ℚ × String))
    (fetchStatus : String → Option Nat) (deep : String → Option DeepAnalysis)
    (f1 : FileState (List Track)) (f2 : FileState (List Song)) :
    load_stage1 FileState.missing = Except.ok [] ∧
    load_stage1 FileState.malformed = Except.error "json.JSONDecodeError" ∧
    load_stage2 (FileState.malformed : FileState (List Song))
      = Except.error "failed to decode JSON" ∧
    (∀ e, load_stage1 f1 = Except.error e →
      url_collection_file rp rt f1 urls = none) ∧
    (∀ e, load_stage2 f2 = Except.error e →
      process_songs_file resolve analyze f2 = none ∧
      analyze_songs_file resolve fetchStatus deep f2 = none) ∧
    process_songs_file resolve analyze FileState.missing = none ∧
    process_songs_file resolve analyze FileState.malformed = none ∧
    (∀ r, url_collection_file rp rt f1 urls = some r →
      ∃ store, load_stage1 f1 = Except.ok store ∧
        r = url_collection rp rt store urls) ∧
    (∀ r, process_songs_file resolve analyze f2 = some r →
      ∃ songs, load_stage2 f2 = Except.ok songs ∧
        r = process_songs resolve analyze songs) := by
  refine ⟨rfl, rfl, rfl, ?_, ?_, rfl, rfl, ?_, ?_⟩
  · intro e he
    cases f1 <;> simp_all [url_collection_file, load_stage1]
  · intro e he
    cases f2 <;>
      simp_all [process_songs_file, analyze_songs_file, load_stage2]
  · intro r hr
    cases f1 with
    | missing =>
      refine ⟨[], rfl, ?_⟩
      simpa [url_collection_file, load_stage1] using hr.symm
    | malformed => simp [url_collection_file, load_stage1] at hr
    | wellFormed d =>
      refine ⟨d, rfl, ?_⟩
      simpa [url_collection_file, load_stage1] using hr.symm
  · intro r hr
    cases f2 with
    | missing => simp [process_songs_file, load_stage2] at hr
    | malformed => simp [process_songs_file, load_stage2] at hr
    | wellFormed d =>
      refine ⟨d, rfl, ?_⟩
      simpa [process_songs_file, load_stage2] using hr.symm

/-- C7 witness: the missing stage-1 store loads as the empty store, and
a malformed stage-2 input makes the stage run nothing. -/
theorem store_load_spec_witness :
    load_stage1 FileState.missing = Except.ok [] ∧
    url_collection_file (fun _ => none) (fun _ => none)
      FileState.malformed [] = none :=
  ⟨(store_load_spec (fun _ => none) (fun _ => none) [] (fun _ => none)
      (fun _ => none) (fun _ => none) (fun _ => none)
      FileState.missing FileState.missing).1,
   (store_load_spec (fun _ => none) (fun _ => none) [] (fun _ => none)
      (fun _ => none) (fun _ => none) (fun _ => none)
      FileState.malformed FileState.missing).2.2.2.1
      "json.JSONDecodeError" rfl⟩

end SongAnalysis
